import Mathlib

/-
Shallow embedding of src/main.py (ortelius-ms-dep-pkg-r): a FastAPI service
exposing GET /health and GET /msapi/deppkg.  External collaborators (the
authorization service, the PostgreSQL database and the license-registry HEAD
endpoint) are modelled as oracles supplied with each request.  Sleep
durations are recorded in milliseconds.
-/

/-- ASCII whitespace stripped by Python str.strip. -/
def pyIsSpace (c : Char) : Bool :=
  c == ' ' || c == '\t' || c == '\n' || c == '\r' || c == '\x0b' || c == '\x0c'

/-- Python str.strip: drop leading and trailing whitespace. -/
def pyStrip (s : String) : String :=
  String.mk (((s.toList.dropWhile (pyIsSpace ·)).reverse.dropWhile (pyIsSpace ·)).reverse)

/-- Helper at src/main.py lines 32-33: a string is blank when it is empty or
consists only of whitespace (Python `not (s and s.strip())` for a string). -/
def isBlank (myString : String) : Bool := pyStrip myString == ""

/-- Service name global (line 36). -/
def service_name : String := "ortelius-ms-dep-pkg-r"

/-- Retry bound global (line 37). -/
def db_conn_retry : Nat := 3

/-- Outcome of the health liveness probe: either SELECT 1 ran and left the
cursor with some rowcount, or an exception was raised. -/
inductive ProbeOutcome where
  | result (rowcount : Int)
  | exn (msg : String)
  deriving DecidableEq

structure HealthResp where
  statusCode : Nat
  status : String
  serviceName : Option String
  deriving DecidableEq

/-- Health endpoint (lines 87-101). -/
def health (p : ProbeOutcome) : HealthResp :=
  match p with
  | .result rowcount =>
      if rowcount > 0 then ⟨200, "UP", some service_name⟩
      else ⟨503, "DOWN", none⟩
  | .exn _ => ⟨503, "DOWN", none⟩

/-- One row fetched from dm_componentdeps (positional tuple of lines 188-195);
a SQL NULL url or purl is modelled as the empty string, matching the
falsiness tests the handler applies to them. -/
structure DepRow where
  packagename : String
  packageversion : String
  name : String
  url : String
  summary : String
  fullcompname : String
  purl : String
  pkgtype : String
  deriving DecidableEq

def spdxFallback : String := "https://spdx.org/licenses/"

/-- Line 198-199: an empty (falsy) url defaults to the SPDX landing page. -/
def defaultUrl (url : String) : String :=
  if url = "" then spdxFallback else url

structure LicenseEntry where
  packagename : String
  packageversion : String
  name : String
  url : String
  summary : String
  fullcompname : String
  deriving DecidableEq

/-- First-match association-list lookup, modelling the valid_url dict (keys
are inserted at most once, so first match is the only match). -/
def lookupAssoc : List (String × String) → String → Option String
  | [], _ => none
  | p :: ps, k => if p.1 = k then some p.2 else lookupAssoc ps k

/-- Request-scoped state of the license branch: the valid_url memo, the
outbound HEAD calls made so far as (license name, url probed) pairs, and the
accumulated response entries. -/
structure LicState where
  validUrl : List (String × String)
  headCalls : List (String × String)
  out : List LicenseEntry
  deriving DecidableEq

/-- One iteration of the license branch of the row loop (lines 197-220).
`head` is the oracle giving the status code of requests.head on a url. -/
def licenseRowStep (head : String → Nat) (st : LicState) (row : DepRow) : LicState :=
  let url1 := defaultUrl row.url
  let st1 :=
    match lookupAssoc st.validUrl row.name with
    | some _ => st
    | none =>
        let v := if head url1 = 200 then url1 else spdxFallback
        { st with validUrl := st.validUrl ++ [(row.name, v)],
                  headCalls := st.headCalls ++ [(row.name, url1)] }
  let urlFinal := (lookupAssoc st1.validUrl row.name).getD spdxFallback
  { st1 with out := st1.out ++
      [⟨row.packagename, row.packageversion, row.name, urlFinal, row.summary, row.fullcompname⟩] }

def licenseLoop (head : String → Nat) (rows : List DepRow) : LicState :=
  rows.foldl (licenseRowStep head) ⟨[], [], []⟩

structure VulnRec where
  id : String
  summary : String
  risklevel : String
  deriving DecidableEq

structure VulnEntry where
  packagename : String
  packageversion : String
  name : String
  url : String
  summary : String
  fullcompname : String
  risklevel : String
  deriving DecidableEq

/-- The two vulnerability lookups of lines 224-231, as oracles over the
dm.dm_vulns table: exact match on (packagename, packageversion), and exact
match on purl. -/
structure VulnDb where
  byPackage : String → String → List VulnRec
  byPurl : String → List VulnRec

def osvBase : String := "https://osv.dev/vulnerability/"

/-- Lines 228-229: when the purl contains a question mark, split on it and
keep the prefix; otherwise the purl is used unchanged. -/
def stripQualifier (purl : String) : String :=
  if '?' ∈ purl.toList then String.mk (purl.toList.takeWhile (fun c => c != '?')) else purl

/-- The cve branch of the row loop (lines 221-254) for a single row: choose
the lookup key, query dm.dm_vulns, and emit one entry per matching record. -/
def cveRowStep (vdb : VulnDb) (row : DepRow) : List VulnEntry :=
  let vrows :=
    if isBlank row.purl then vdb.byPackage row.packagename row.packageversion
    else vdb.byPurl (stripQualifier row.purl)
  vrows.map (fun v =>
    ⟨row.packagename, row.packageversion, v.id, osvBase ++ v.id, v.summary, row.fullcompname,
      v.risklevel⟩)

def cveLoop (vdb : VulnDb) (rows : List DepRow) : List VulnEntry :=
  rows.foldl (fun acc row => acc ++ cveRowStep vdb row) []

def sqlComponent : String :=
  "SELECT packagename, packageversion, name, url, summary, '', purl, pkgtype FROM dm_componentdeps where compid = %s and deptype = %s"

def sqlApplication : String :=
  "select distinct b.packagename, b.packageversion, b.name, b.url, b.summary, fulldomain(c.domainid, c.name), b.purl, b.pkgtype from dm.dm_applicationcomponent a, dm.dm_componentdeps b, dm.dm_component c where appid = %s and a.compid = b.compid and c.id = b.compid and b.deptype = %s"

/-- Lines 174-181: sql starts empty and id starts as compid; compid wins when
present, else appid; when neither is present the sql stays empty. -/
def selectQuery (compid appid : Option Int) : String × Option Int :=
  match compid with
  | some _ => (sqlComponent, compid)
  | none =>
      match appid with
      | some _ => (sqlApplication, appid)
      | none => ("", none)

/-- One cursor.execute of the dependency query: the sql text and the two
parameters of line 182, `tuple([id, 'license'])`. -/
structure DbCall where
  sql : String
  idParam : Option Int
  deptypeParam : String
  deriving DecidableEq

def mkDbCall (compid appid : Option Int) : DbCall :=
  ⟨(selectQuery compid appid).1, (selectQuery compid appid).2, "license"⟩

/-- Outcome of one attempt of the connect-execute-fetch sequence: rows, a
transient error (sqlalchemy InterfaceError or OperationalError, line 259), or
any other exception. -/
inductive DbOutcome where
  | ok (rows : List DepRow)
  | transient (msg : String)
  | failure (msg : String)
  deriving DecidableEq

inductive RetryResult where
  | success (rows : List DepRow) (attempts : Nat) (sleeps : List Nat)
  | transientExhausted (msg : String) (attempts : Nat) (sleeps : List Nat)
  | failed (msg : String) (attempts : Nat) (sleeps : List Nat)
  deriving DecidableEq

/-- The while-True retry loop of lines 166-273.  `script` gives the outcome
of each numbered attempt; the fuel argument is no_of_retry minus the current
attempt number, so `attempt < no_of_retry` is exactly `fuel > 0`.  Each retry
records a 200 ms sleep. -/
def retryAux (script : Nat → DbOutcome) (attempt : Nat) (sleeps : List Nat) : Nat → RetryResult
  | 0 =>
    match script attempt with
    | .ok rows => .success rows attempt sleeps
    | .failure m => .failed m attempt sleeps
    | .transient m => .transientExhausted m attempt sleeps
  | f + 1 =>
    match script attempt with
    | .ok rows => .success rows attempt sleeps
    | .failure m => .failed m attempt sleeps
    | .transient _ => retryAux script (attempt + 1) (sleeps ++ [200]) f

def runRetry (script : Nat → DbOutcome) : RetryResult :=
  retryAux script 1 [] (db_conn_retry - 1)

/-- Outcome of the requests.get call to the validateuser service: no
response object, a response with a status code, or a raised exception. -/
inductive AuthOutcome where
  | noResult
  | response (statusCode : Nat)
  | errorRaised (msg : String)
  deriving DecidableEq

/-- str() of a raised starlette HTTPException renders as "code: detail". -/
def httpExceptionText (code : Nat) (detail : String) : String :=
  toString code ++ ": " ++ detail

/-- The authorization step (lines 152-160).  The two HTTPExceptions raised
inside the try block are themselves caught by the `except Exception` clause,
so every failure surfaces as 401 with detail "Authorization Failed:" followed
by the string form of the caught exception.  Returns none exactly when the
validator responded with status 200. -/
def authFail : AuthOutcome → Option String
  | .noResult => some ("Authorization Failed:" ++ httpExceptionText 401 "Authorization Failed")
  | .errorRaised m => some ("Authorization Failed:" ++ m)
  | .response c =>
      if c = 200 then none
      else some ("Authorization Failed:" ++
        httpExceptionText 401 ("Authorization Failed status_code=" ++ toString c))

inductive RespEntry where
  | lic (e : LicenseEntry)
  | vuln (e : VulnEntry)
  deriving DecidableEq

inductive Resp where
  | ok (data : List RespEntry)
  | err (statusCode : Nat) (detail : String)
  deriving DecidableEq

/-- The per-request world: oracles for the authorization call, the database
(indexed by attempt number and by what is executed), the license-registry
HEAD probe, and the vulnerability table. -/
structure ReqWorld where
  auth : AuthOutcome
  dbRun : Nat → DbCall → DbOutcome
  head : String → Nat
  vdb : VulnDb

/-- Observable result of one request: the HTTP response plus the trace of
database executes, HEAD probes, and sleeps. -/
structure HandlerResult where
  resp : Resp
  dbCalls : List DbCall
  headCalls : List (String × String)
  sleeps : List Nat
  deriving DecidableEq

/-- Row processing of lines 187-256: deptype is constant across the loop, so
the per-row branch on it equals one branch over the whole fetched list. -/
def processRows (deptype : String) (head : String → Nat) (vdb : VulnDb) (rows : List DepRow) :
    List RespEntry × List (String × String) :=
  if deptype = "license" then
    let st := licenseLoop head rows
    (st.out.map RespEntry.lic, st.headCalls)
  else
    ((cveLoop vdb rows).map RespEntry.vuln, [])

/-- The handler body of lines 151-279: authorization, then the retried
dependency query (the same DbCall is issued on every attempt), then row
processing; retry exhaustion and non-transient errors both reach the generic
`except Exception` clause and become 500 with str(err) as the detail. -/
def getCompPkgDeps (compid appid : Option Int) (deptype : String) (w : ReqWorld) : HandlerResult :=
  match authFail w.auth with
  | some detail => ⟨.err 401 detail, [], [], []⟩
  | none =>
      let call := mkDbCall compid appid
      match runRetry (fun attempt => w.dbRun attempt call) with
      | .success rows attempts sleeps =>
          let pr := processRows deptype w.head w.vdb rows
          ⟨.ok pr.1, List.replicate attempts call, pr.2, sleeps⟩
      | .transientExhausted m attempts sleeps =>
          ⟨.err 500 m, List.replicate attempts call, [], sleeps⟩
      | .failed m attempts sleeps =>
          ⟨.err 500 m, List.replicate attempts call, [], sleeps⟩

/-- FastAPI validation of the deptype query parameter (line 151): pydantic
applies Python re.match with the pattern of the source, an alternation of the
two literals license and cve, anchored at the start of the string only. -/
def deptypeMatches (s : String) : Bool :=
  List.isPrefixOf "license".toList s.toList || List.isPrefixOf "cve".toList s.toList

/-- The full endpoint: framework parameter validation (422 on failure, before
the handler body runs) followed by the handler body. -/
def msapiDeppkg (compid appid : Option Int) (deptype : String) (w : ReqWorld) : HandlerResult :=
  if deptypeMatches deptype then getCompPkgDeps compid appid deptype w
  else ⟨.err 422 "validation error", [], [], []⟩

/-- An association-list hit names an actual entry with the looked-up key. -/
theorem lookupAssoc_mem : ∀ {m : List (String × String)} {k v : String},
    lookupAssoc m k = some v → ∃ p ∈ m, p.1 = k ∧ p.2 = v := by
  intro m
  induction m with
  | nil => intro k v h; simp [lookupAssoc] at h
  | cons p ps ih =>
    intro k v h
    by_cases hk : p.1 = k
    · refine ⟨p, List.mem_cons_self _ _, hk, ?_⟩
      simpa [lookupAssoc, hk] using h
    · simp only [lookupAssoc, if_neg hk] at h
      obtain ⟨q, hq, h1, h2⟩ := ih h
      exact ⟨q, List.mem_cons_of_mem _ hq, h1, h2⟩

/-- A hit is preserved by appending entries on the right. -/
theorem lookupAssoc_append_some : ∀ (m : List (String × String)) (k v : String)
    (l : List (String × String)), lookupAssoc m k = some v →
    lookupAssoc (m ++ l) k = some v := by
  intro m
  induction m with
  | nil => intro k v l h; simp [lookupAssoc] at h
  | cons p ps ih =>
    intro k v l h
    by_cases hk : p.1 = k
    · simp only [List.cons_append, lookupAssoc, if_pos hk] at h ⊢
      exact h
    · simp only [List.cons_append, lookupAssoc, if_neg hk] at h ⊢
      exact ih k v l h

/-- After a miss, appending the key at the right end makes the lookup hit. -/
theorem lookupAssoc_append_none : ∀ (m : List (String × String)) (k v : String),
    lookupAssoc m k = none → lookupAssoc (m ++ [(k, v)]) k = some v := by
  intro m
  induction m with
  | nil => intro k v _; simp [lookupAssoc]
  | cons p ps ih =>
    intro k v h
    by_cases hk : p.1 = k
    · simp [lookupAssoc, if_pos hk] at h
    · simp only [List.cons_append, lookupAssoc, if_neg hk] at h ⊢
      exact ih k v h

theorem defaultUrl_ne_empty (u : String) : defaultUrl u ≠ "" := by
  unfold defaultUrl
  split
  · decide
  · assumption

/-- C8: the health endpoint returns 200 with status UP and the service name
exactly when the probe ran SELECT 1 without raising and reported a positive
rowcount; in every other case (raised exception, or no rows) it returns 503
DOWN with no service name. -/
theorem C8_health (p : ProbeOutcome) :
    (health p = ⟨200, "UP", some service_name⟩ ↔ ∃ rc, p = .result rc ∧ rc > 0) ∧
    ((¬ ∃ rc, p = .result rc ∧ rc > 0) → health p = ⟨503, "DOWN", none⟩) := by
  cases p with
  | result rc =>
    by_cases h : rc > 0
    · exact ⟨by simp [health, h], fun hn => absurd ⟨rc, rfl, h⟩ hn⟩
    · constructor
      · simp [health, h]
      · intro _; simp [health, h]
  | exn m =>
    constructor
    · simp [health]
    · intro _; simp [health]

theorem C8_health_witness :
    health (.exn "connection refused") = ⟨503, "DOWN", none⟩ :=
  (C8_health (.exn "connection refused")).2 (by simp)

/-- C9: when both compid and appid are supplied, the component-scoped query
is selected with compid as the sole parameter, and the whole observable
result is identical to the same request with appid absent. -/
theorem C9_appidIgnored (w : ReqWorld) (cid : Int) (aid : Int) (dt : String) :
    msapiDeppkg (some cid) (some aid) dt w = msapiDeppkg (some cid) none dt w ∧
    getCompPkgDeps (some cid) (some aid) dt w = getCompPkgDeps (some cid) none dt w ∧
    selectQuery (some cid) (some aid) = (sqlComponent, some cid) := by
  exact ⟨rfl, rfl, rfl⟩

/-- C4: whenever the authorization call yields no response, a non-200
status, or a raised transport error, the handler answers 401 with a detail
message describing the cause and performs no database query, no HEAD probe
and no sleep. -/
theorem C4_authShortCircuit (w : ReqWorld) (cid aid : Option Int) (dt : String)
    (h : w.auth = .noResult ∨ (∃ c, w.auth = .response c ∧ c ≠ 200) ∨
      (∃ m, w.auth = .errorRaised m)) :
    ∃ d, getCompPkgDeps cid aid dt w = ⟨.err 401 d, [], [], []⟩ := by
  rcases h with h | ⟨c, h, hc⟩ | ⟨m, h⟩
  · refine ⟨"Authorization Failed:" ++ httpExceptionText 401 "Authorization Failed", ?_⟩
    simp [getCompPkgDeps, authFail, h]
  · refine ⟨"Authorization Failed:" ++
      httpExceptionText 401 ("Authorization Failed status_code=" ++ toString c), ?_⟩
    simp [getCompPkgDeps, authFail, h, hc]
  · refine ⟨"Authorization Failed:" ++ m, ?_⟩
    simp [getCompPkgDeps, authFail, h]

theorem C4_authShortCircuit_witness :
    ∃ d, getCompPkgDeps (some 7) none "license"
        ⟨.response 403, fun _ _ => .ok [], fun _ => 200, ⟨fun _ _ => [], fun _ => []⟩⟩ =
      ⟨.err 401 d, [], [], []⟩ :=
  C4_authShortCircuit _ _ _ _ (Or.inr (Or.inl ⟨403, rfl, by decide⟩))

/-- C10: with neither compid nor appid supplied and authorization
succeeding, the executed SQL text is the empty string; when the driver
raises a non-transient error on it, the response is 500 carrying the error
string as its detail — not a 400/422 validation failure. -/
theorem C10_emptySql (w : ReqWorld) (dt : String) (m : String)
    (hauth : w.auth = .response 200)
    (hdb : w.dbRun 1 ⟨"", none, "license"⟩ = .failure m) :
    getCompPkgDeps none none dt w = ⟨.err 500 m, [⟨"", none, "license"⟩], [], []⟩ := by
  have hcall : mkDbCall none none = ⟨"", none, "license"⟩ := rfl
  simp [getCompPkgDeps, authFail, hauth, runRetry, db_conn_retry, retryAux, hcall, hdb,
    List.replicate]

theorem C10_emptySql_witness :
    getCompPkgDeps none none "license"
        ⟨.response 200, fun _ _ => .failure "ProgrammingError: empty query", fun _ => 200,
          ⟨fun _ _ => [], fun _ => []⟩⟩ =
      ⟨.err 500 "ProgrammingError: empty query", [⟨"", none, "license"⟩], [], []⟩ :=
  C10_emptySql _ _ _ rfl rfl

theorem retryAux_ok (script : Nat → DbOutcome) (attempt : Nat) (sleeps : List Nat)
    (fuel : Nat) (rows : List DepRow) (h : script attempt = .ok rows) :
    retryAux script attempt sleeps fuel = .success rows attempt sleeps := by
  cases fuel <;> simp [retryAux, h]

theorem retryAux_failure (script : Nat → DbOutcome) (attempt : Nat) (sleeps : List Nat)
    (fuel : Nat) (m : String) (h : script attempt = .failure m) :
    retryAux script attempt sleeps fuel = .failed m attempt sleeps := by
  cases fuel <;> simp [retryAux, h]

theorem retryAux_transient_zero (script : Nat → DbOutcome) (attempt : Nat)
    (sleeps : List Nat) (m : String) (h : script attempt = .transient m) :
    retryAux script attempt sleeps 0 = .transientExhausted m attempt sleeps := by
  simp [retryAux, h]

theorem retryAux_transient_succ (script : Nat → DbOutcome) (attempt : Nat)
    (sleeps : List Nat) (f : Nat) (m : String) (h : script attempt = .transient m) :
    retryAux script attempt sleeps (f + 1) =
      retryAux script (attempt + 1) (sleeps ++ [200]) f := by
  simp [retryAux, h]

/-- C2: the dependency query is retried only on transient
(InterfaceError/OperationalError) failures, for at most 3 attempts in total
with one 200 ms sleep between consecutive attempts; success on any attempt
yields the normal 200 response, exhausting all attempts re-raises the last
transient error as a 500, and a non-transient error propagates immediately
with no further attempt. -/
theorem C2_retryPolicy :
    (∀ script : Nat → DbOutcome,
      (∀ rows, script 1 = .ok rows → runRetry script = .success rows 1 []) ∧
      (∀ m rows, script 1 = .transient m → script 2 = .ok rows →
        runRetry script = .success rows 2 [200]) ∧
      (∀ m1 m2 rows, script 1 = .transient m1 → script 2 = .transient m2 →
        script 3 = .ok rows → runRetry script = .success rows 3 [200, 200]) ∧
      (∀ m1 m2 m3, script 1 = .transient m1 → script 2 = .transient m2 →
        script 3 = .transient m3 →
        runRetry script = .transientExhausted m3 3 [200, 200]) ∧
      (∀ m, script 1 = .failure m → runRetry script = .failed m 1 []) ∧
      (∀ m1 m2, script 1 = .transient m1 → script 2 = .failure m2 →
        runRetry script = .failed m2 2 [200]) ∧
      (∀ m1 m2 m3, script 1 = .transient m1 → script 2 = .transient m2 →
        script 3 = .failure m3 → runRetry script = .failed m3 3 [200, 200])) ∧
    (∀ (w : ReqWorld) (cid aid : Option Int) (dt : String) (m1 m2 : String)
        (rows : List DepRow), w.auth = .response 200 →
      w.dbRun 1 (mkDbCall cid aid) = .transient m1 →
      w.dbRun 2 (mkDbCall cid aid) = .transient m2 →
      w.dbRun 3 (mkDbCall cid aid) = .ok rows →
      (getCompPkgDeps cid aid dt w).resp = .ok (processRows dt w.head w.vdb rows).1 ∧
      (getCompPkgDeps cid aid dt w).sleeps = [200, 200]) ∧
    (∀ (w : ReqWorld) (cid aid : Option Int) (dt : String) (m1 m2 m3 : String),
      w.auth = .response 200 →
      w.dbRun 1 (mkDbCall cid aid) = .transient m1 →
      w.dbRun 2 (mkDbCall cid aid) = .transient m2 →
      w.dbRun 3 (mkDbCall cid aid) = .transient m3 →
      (getCompPkgDeps cid aid dt w).resp = .err 500 m3) := by
  have step2 : ∀ (script : Nat → DbOutcome) (m : String), script 1 = .transient m →
      runRetry script = retryAux script 2 [200] 1 := by
    intro script m h
    have := retryAux_transient_succ script 1 [] 1 m h
    simpa [runRetry, db_conn_retry] using this
  have step3 : ∀ (script : Nat → DbOutcome) (m : String), script 2 = .transient m →
      retryAux script 2 [200] 1 = retryAux script 3 [200, 200] 0 := by
    intro script m h
    have := retryAux_transient_succ script 2 [200] 0 m h
    simpa using this
  refine ⟨?_, ?_, ?_⟩
  · intro script
    refine ⟨?_, ?_, ?_, ?_, ?_, ?_, ?_⟩
    · intro rows h1
      have := retryAux_ok script 1 [] 2 rows h1
      simpa [runRetry, db_conn_retry] using this
    · intro m rows h1 h2
      rw [step2 script m h1]
      have := retryAux_ok script 2 [200] 1 rows h2
      simpa using this
    · intro m1 m2 rows h1 h2 h3
      rw [step2 script m1 h1, step3 script m2 h2]
      exact retryAux_ok script 3 [200, 200] 0 rows h3
    · intro m1 m2 m3 h1 h2 h3
      rw [step2 script m1 h1, step3 script m2 h2]
      exact retryAux_transient_zero script 3 [200, 200] m3 h3
    · intro m h1
      have := retryAux_failure script 1 [] 2 m h1
      simpa [runRetry, db_conn_retry] using this
    · intro m1 m2 h1 h2
      rw [step2 script m1 h1]
      exact retryAux_failure script 2 [200] 1 m2 h2
    · intro m1 m2 m3 h1 h2 h3
      rw [step2 script m1 h1, step3 script m2 h2]
      exact retryAux_failure script 3 [200, 200] 0 m3 h3
  · intro w cid aid dt m1 m2 rows hauth h1 h2 h3
    have hr : runRetry (fun attempt => w.dbRun attempt (mkDbCall cid aid)) =
        .success rows 3 [200, 200] := by
      rw [step2 _ m1 h1, step3 _ m2 h2]
      exact retryAux_ok _ 3 [200, 200] 0 rows h3
    constructor <;> simp [getCompPkgDeps, authFail, hauth, hr]
  · intro w cid aid dt m1 m2 m3 hauth h1 h2 h3
    have hr : runRetry (fun attempt => w.dbRun attempt (mkDbCall cid aid)) =
        .transientExhausted m3 3 [200, 200] := by
      rw [step2 _ m1 h1, step3 _ m2 h2]
      exact retryAux_transient_zero _ 3 [200, 200] m3 h3
    simp [getCompPkgDeps, authFail, hauth, hr]

theorem C2_retryPolicy_witness :
    runRetry (fun n => if n = 1 then .transient "connection reset" else
      if n = 2 then .transient "connection reset again" else .ok []) =
      .success [] 3 [200, 200] :=
  (C2_retryPolicy.1 _).2.2.1 "connection reset" "connection reset again" [] rfl rfl rfl

/-- C5: every executed dependency query carries the literal deptype filter
"license" as its second parameter, whatever the requested deptype was; and
the executed query list does not depend on the requested deptype at all —
the branch on deptype happens only in application logic after the rows are
fetched. -/
theorem C5_licenseFilter (w : ReqWorld) (cid aid : Option Int) (dt dt2 : String) :
    (∀ call ∈ (getCompPkgDeps cid aid dt w).dbCalls, call.deptypeParam = "license") ∧
    (getCompPkgDeps cid aid dt w).dbCalls = (getCompPkgDeps cid aid dt2 w).dbCalls := by
  cases hauth : authFail w.auth with
  | some d => simp [getCompPkgDeps, hauth]
  | none =>
    cases hr : runRetry (fun attempt => w.dbRun attempt (mkDbCall cid aid)) with
    | success rows n s =>
      constructor
      · intro call hc
        simp only [getCompPkgDeps, hauth, hr] at hc
        rw [List.eq_of_mem_replicate hc]
        rfl
      · simp [getCompPkgDeps, hauth, hr]
    | transientExhausted m n s =>
      constructor
      · intro call hc
        simp only [getCompPkgDeps, hauth, hr] at hc
        rw [List.eq_of_mem_replicate hc]
        rfl
      · simp [getCompPkgDeps, hauth, hr]
    | failed m n s =>
      constructor
      · intro call hc
        simp only [getCompPkgDeps, hauth, hr] at hc
        rw [List.eq_of_mem_replicate hc]
        rfl
      · simp [getCompPkgDeps, hauth, hr]

theorem C5_licenseFilter_witness :
    mkDbCall (some 7) none ∈ (getCompPkgDeps (some 7) none "cve"
        ⟨.response 200, fun _ _ => .ok [], fun _ => 200,
          ⟨fun _ _ => [], fun _ => []⟩⟩).dbCalls ∧
      (mkDbCall (some 7) none).deptypeParam = "license" :=
  ⟨by decide,
    (C5_licenseFilter ⟨.response 200, fun _ _ => .ok [], fun _ => 200,
      ⟨fun _ _ => [], fun _ => []⟩⟩ (some 7) none "cve" "license").1 _ (by decide)⟩

/-- Behaviour of one license iteration when the memo already has the name. -/
theorem licenseRowStep_hit (head : String → Nat) (st : LicState) (row : DepRow)
    (v : String) (hl : lookupAssoc st.validUrl row.name = some v) :
    licenseRowStep head st row =
      { st with out := st.out ++
          [⟨row.packagename, row.packageversion, row.name, v, row.summary,
            row.fullcompname⟩] } := by
  unfold licenseRowStep
  simp [hl]

/-- The url the license branch records for a row on a memo miss
(lines 203-207): the row's defaulted url when HEAD answers 200, and the
SPDX fallback otherwise. -/
def validatedUrl (head : String → Nat) (r : DepRow) : String :=
  if head (defaultUrl r.url) = 200 then defaultUrl r.url else spdxFallback

theorem validatedUrl_ne_empty (head : String → Nat) (r : DepRow) :
    validatedUrl head r ≠ "" := by
  unfold validatedUrl
  split
  · exact defaultUrl_ne_empty _
  · decide

/-- Behaviour of one license iteration on a memo miss: one HEAD call is made
on the defaulted url and its validated result is recorded and emitted. -/
theorem licenseRowStep_miss (head : String → Nat) (st : LicState) (row : DepRow)
    (hl : lookupAssoc st.validUrl row.name = none) :
    licenseRowStep head st row =
      { validUrl := st.validUrl ++ [(row.name, validatedUrl head row)],
        headCalls := st.headCalls ++ [(row.name, defaultUrl row.url)],
        out := st.out ++
          [⟨row.packagename, row.packageversion, row.name, validatedUrl head row,
            row.summary, row.fullcompname⟩] } := by
  unfold licenseRowStep
  simp only [hl]
  rw [lookupAssoc_append_none st.validUrl row.name _ hl]
  simp [validatedUrl]

/-- Every recorded HEAD-call name is backed by a memo entry. -/
def headCallsCovered (st : LicState) : Prop :=
  ∀ n ∈ st.headCalls.map Prod.fst, (lookupAssoc st.validUrl n).isSome = true

theorem licenseRowStep_calls (head : String → Nat) (st : LicState) (row : DepRow)
    (hnd : (st.headCalls.map Prod.fst).Nodup) (hcov : headCallsCovered st) :
    ((licenseRowStep head st row).headCalls.map Prod.fst).Nodup ∧
      headCallsCovered (licenseRowStep head st row) := by
  cases hl : lookupAssoc st.validUrl row.name with
  | some v =>
    rw [licenseRowStep_hit head st row v hl]
    exact ⟨hnd, hcov⟩
  | none =>
    rw [licenseRowStep_miss head st row hl]
    have hnotin : row.name ∉ st.headCalls.map Prod.fst := by
      intro hmem
      have h := hcov row.name hmem
      rw [hl] at h
      simp at h
    constructor
    · simp only [List.map_append, List.map_cons, List.map_nil]
      rw [List.nodup_append]
      refine ⟨hnd, List.nodup_singleton _, ?_⟩
      intro x hx hx'
      rw [List.mem_singleton] at hx'
      exact hnotin (hx' ▸ hx)
    · intro n hn
      simp only [List.map_append, List.map_cons, List.map_nil, List.mem_append,
        List.mem_singleton] at hn
      rcases hn with hn | hn
      · obtain ⟨v', hv'⟩ := Option.isSome_iff_exists.mp (hcov n hn)
        rw [lookupAssoc_append_some st.validUrl n v' _ hv']
        rfl
      · subst hn
        rw [lookupAssoc_append_none st.validUrl row.name _ hl]
        rfl

theorem licenseLoop_calls_aux (head : String → Nat) :
    ∀ (rows : List DepRow) (st : LicState),
      (st.headCalls.map Prod.fst).Nodup → headCallsCovered st →
      ((rows.foldl (licenseRowStep head) st).headCalls.map Prod.fst).Nodup := by
  intro rows
  induction rows with
  | nil => intro st h1 _; simpa using h1
  | cons r rs ih =>
    intro st h1 h2
    simp only [List.foldl_cons]
    obtain ⟨h1', h2'⟩ := licenseRowStep_calls head st r h1 h2
    exact ih _ h1' h2'

/-- C6: within a single license request, at most one outbound HEAD
validation call occurs per distinct license name, however many fetched rows
share that name — both for the row-processing loop and for the trace of the
whole handler. -/
theorem C6_headMemoization (head : String → Nat) (rows : List DepRow) (name : String)
    (w : ReqWorld) (cid aid : Option Int) (dt : String) :
    ((licenseLoop head rows).headCalls.map Prod.fst).count name ≤ 1 ∧
      ((getCompPkgDeps cid aid dt w).headCalls.map Prod.fst).count name ≤ 1 := by
  have hloop : ∀ (h2 : String → Nat) (rs : List DepRow),
      ((licenseLoop h2 rs).headCalls.map Prod.fst).Nodup := by
    intro h2 rs
    refine licenseLoop_calls_aux h2 rs ⟨[], [], []⟩ (by simp) ?_
    intro n hn
    simp at hn
  constructor
  · exact List.nodup_iff_count_le_one.mp (hloop head rows) name
  · cases hauth : authFail w.auth with
    | some d => simp [getCompPkgDeps, hauth]
    | none =>
      cases hr : runRetry (fun attempt => w.dbRun attempt (mkDbCall cid aid)) with
      | success rws n s =>
        simp only [getCompPkgDeps, hauth, hr]
        by_cases hdt : dt = "license"
        · simp only [processRows, if_pos hdt]
          exact List.nodup_iff_count_le_one.mp (hloop w.head rws) name
        · simp [processRows, if_neg hdt]
      | transientExhausted m n s => simp [getCompPkgDeps, hauth, hr]
      | failed m n s => simp [getCompPkgDeps, hauth, hr]

/-- Appending a differently-keyed entry does not change a lookup. -/
theorem lookupAssoc_append_ne : ∀ (m : List (String × String)) (k n v : String),
    k ≠ n → lookupAssoc (m ++ [(k, v)]) n = lookupAssoc m n := by
  intro m
  induction m with
  | nil => intro k n v hk; simp [lookupAssoc, hk]
  | cons p ps ih =>
    intro k n v hk
    by_cases hp : p.1 = n
    · simp [lookupAssoc, hp]
    · simp only [List.cons_append, lookupAssoc, if_neg hp]
      exact ih k n v hk

/-- After processing the row prefix done, the valid_url memo maps each
license name to the validated url of the first row of done carrying that
name, and to nothing when no such row exists. -/
def memoIsFirst (head : String → Nat) (done : List DepRow) (st : LicState) : Prop :=
  ∀ n : String, lookupAssoc st.validUrl n =
    (done.find? (fun r => r.name == n)).map (validatedUrl head)

/-- An emitted entry carries the validated url of the first fetched row
with its license name. -/
def entryFromFirst (head : String → Nat) (rows : List DepRow) (e : LicenseEntry) : Prop :=
  e.url ≠ "" ∧ ∃ r0, rows.find? (fun r => r.name == e.name) = some r0 ∧
    e.url = validatedUrl head r0

theorem licenseRowStep_first (head : String → Nat) (rows done : List DepRow)
    (r : DepRow) (rs : List DepRow) (st : LicState)
    (hsplit : rows = done ++ r :: rs)
    (hmemo : memoIsFirst head done st)
    (hout : ∀ e ∈ st.out, entryFromFirst head rows e) :
    memoIsFirst head (done ++ [r]) (licenseRowStep head st r) ∧
      ∀ e ∈ (licenseRowStep head st r).out, entryFromFirst head rows e := by
  cases hl : lookupAssoc st.validUrl r.name with
  | some v =>
    have hfind : ∃ r0, done.find? (fun x => x.name == r.name) = some r0 ∧
        validatedUrl head r0 = v := by
      have h := hmemo r.name
      rw [hl] at h
      cases hf : done.find? (fun x => x.name == r.name) with
      | none => rw [hf] at h; simp at h
      | some r0 =>
        rw [hf] at h
        simp only [Option.map_some'] at h
        exact ⟨r0, rfl, by injection h; simp [*]⟩
    obtain ⟨r0, hf, hv⟩ := hfind
    rw [licenseRowStep_hit head st r v hl]
    constructor
    · intro n
      show lookupAssoc st.validUrl n =
        ((done ++ [r]).find? (fun x => x.name == n)).map (validatedUrl head)
      rw [hmemo n, List.find?_append]
      cases hfn : done.find? (fun x => x.name == n) with
      | some x => simp
      | none =>
        by_cases hn : r.name = n
        · subst hn
          rw [hfn] at hf
          cases hf
        · have hb : (r.name == n) = false := beq_eq_false_iff_ne.mpr hn
          simp [List.find?, hb]
    · intro e he
      have he' : e ∈ st.out ++
          [⟨r.packagename, r.packageversion, r.name, v, r.summary, r.fullcompname⟩] := he
      rw [List.mem_append, List.mem_singleton] at he'
      rcases he' with he' | he'
      · exact hout e he'
      · subst he'
        refine ⟨?_, r0, ?_, hv.symm⟩
        · show v ≠ ""
          rw [← hv]
          exact validatedUrl_ne_empty head r0
        · show rows.find? (fun x => x.name == r.name) = some r0
          rw [hsplit, List.find?_append, hf]
          simp
  | none =>
    have hfdone : done.find? (fun x => x.name == r.name) = none := by
      have h := hmemo r.name
      rw [hl] at h
      cases hf : done.find? (fun x => x.name == r.name) with
      | none => rfl
      | some x => rw [hf] at h; simp at h
    rw [licenseRowStep_miss head st r hl]
    constructor
    · intro n
      show lookupAssoc (st.validUrl ++ [(r.name, validatedUrl head r)]) n =
        ((done ++ [r]).find? (fun x => x.name == n)).map (validatedUrl head)
      by_cases hn : r.name = n
      · subst hn
        rw [lookupAssoc_append_none _ _ _ hl, List.find?_append, hfdone]
        simp [List.find?]
      · rw [lookupAssoc_append_ne _ _ _ _ hn, hmemo n, List.find?_append]
        have hb : (r.name == n) = false := beq_eq_false_iff_ne.mpr hn
        simp [List.find?, hb, Option.or_none]
    · intro e he
      have he' : e ∈ st.out ++
          [⟨r.packagename, r.packageversion, r.name, validatedUrl head r,
            r.summary, r.fullcompname⟩] := he
      rw [List.mem_append, List.mem_singleton] at he'
      rcases he' with he' | he'
      · exact hout e he'
      · subst he'
        refine ⟨validatedUrl_ne_empty head r, r, ?_, rfl⟩
        show rows.find? (fun x => x.name == r.name) = some r
        rw [hsplit, List.find?_append, hfdone]
        simp [List.find?]

theorem licenseLoop_first_aux (head : String → Nat) (rows : List DepRow) :
    ∀ (todo done : List DepRow) (st : LicState),
      rows = done ++ todo →
      memoIsFirst head done st →
      (∀ e ∈ st.out, entryFromFirst head rows e) →
      ∀ e ∈ (todo.foldl (licenseRowStep head) st).out, entryFromFirst head rows e := by
  intro todo
  induction todo with
  | nil =>
    intro done st _ _ hout e he
    exact hout e (by simpa using he)
  | cons r rs ih =>
    intro done st hsplit hmemo hout
    simp only [List.foldl_cons]
    obtain ⟨hmemo', hout'⟩ := licenseRowStep_first head rows done r rs st hsplit hmemo hout
    exact ih (done ++ [r]) _ (by simp [hsplit]) hmemo' hout'

/-- The returned-url invariant exactly as the claim states it: each entry of
the license output, paired positionally with its originating row, has a
non-empty url that is its own row's defaulted original url HEAD-validated to
200, or else the SPDX fallback. -/
def rowUrlClaim (head : String → Nat) (rows : List DepRow) : Prop :=
  ∀ p ∈ rows.zip (licenseLoop head rows).out,
    p.2.url ≠ "" ∧
      ((p.2.url = defaultUrl p.1.url ∧ head (defaultUrl p.1.url) = 200) ∨
        p.2.url = spdxFallback)

/-- C1 counterexample: two fetched rows share the license name MIT but carry
different urls, and HEAD answers 200 everywhere; the memo hands the second
entry the first row's url, which is neither that row's own url nor the SPDX
fallback. -/
theorem C1_counterexample :
    ¬ rowUrlClaim (fun _ => 200)
      [⟨"left-pad", "1.0", "MIT", "https://a.example/", "", "", "", ""⟩,
       ⟨"right-pad", "1.0", "MIT", "https://b.example/", "", "", "", ""⟩] := by
  unfold rowUrlClaim
  decide

/-- C1 (amended): for a license request every returned entry has a
non-empty url determined by the first fetched row carrying the entry's
license name: that row's defaulted original url when an HTTP HEAD on it
returned 200, and the fixed SPDX fallback when it did not.  With
memoization this first row need not be the entry's own row. -/
theorem C1_licenseUrls (head : String → Nat) (rows : List DepRow) (e : LicenseEntry)
    (he : e ∈ (licenseLoop head rows).out) :
    e.url ≠ "" ∧ ∃ r0, rows.find? (fun r => r.name == e.name) = some r0 ∧
      ((e.url = defaultUrl r0.url ∧ head (defaultUrl r0.url) = 200) ∨
        (e.url = spdxFallback ∧ head (defaultUrl r0.url) ≠ 200)) := by
  have h := licenseLoop_first_aux head rows rows [] ⟨[], [], []⟩ (by simp)
    (by intro n; rfl) (by intro x hx; simp at hx) e he
  obtain ⟨hne, r0, hf, hu⟩ := h
  refine ⟨hne, r0, hf, ?_⟩
  by_cases hh : head (defaultUrl r0.url) = 200
  · exact Or.inl ⟨by rw [hu]; unfold validatedUrl; rw [if_pos hh], hh⟩
  · exact Or.inr ⟨by rw [hu]; unfold validatedUrl; rw [if_neg hh], hh⟩

theorem C1_licenseUrls_witness :
    (⟨"flask", "1.2.2", "BSD-3-Clause", "https://spdx.org/licenses/", "", ""⟩ : LicenseEntry) ∈
        (licenseLoop (fun _ => 200)
          [⟨"flask", "1.2.2", "BSD-3-Clause", "", "", "", "", ""⟩]).out ∧
      ("https://spdx.org/licenses/" : String) ≠ "" :=
  ⟨by decide,
    (C1_licenseUrls (fun _ => 200) [⟨"flask", "1.2.2", "BSD-3-Clause", "", "", "", "", ""⟩]
      ⟨"flask", "1.2.2", "BSD-3-Clause", "https://spdx.org/licenses/", "", ""⟩ (by decide)).1⟩

theorem foldl_append_eq_bind (f : DepRow → List VulnEntry) :
    ∀ (rows : List DepRow) (acc : List VulnEntry),
      rows.foldl (fun a r => a ++ f r) acc = acc ++ rows.flatMap f := by
  intro rows
  induction rows with
  | nil => intro acc; simp
  | cons r rs ih =>
    intro acc
    simp only [List.foldl_cons, ih, List.flatMap_cons, List.append_assoc]

theorem takeWhile_no_qmark : ∀ (l : List Char), '?' ∉ l →
    l.takeWhile (fun c => c != '?') = l := by
  intro l
  induction l with
  | nil => intro _; rfl
  | cons c cs ih =>
    intro h
    have hc : c ≠ '?' := by
      intro e
      exact h (by rw [e]; exact List.mem_cons_self _ _)
    have hcs : '?' ∉ cs := fun hm => h (List.mem_cons_of_mem _ hm)
    have hb : (c != '?') = true := by
      simpa [bne_iff_ne] using hc
    simp [List.takeWhile_cons, hb, ih hcs]

/-- The question-mark guard in the source is redundant: stripping always
equals taking the prefix before the first question mark. -/
theorem stripQualifier_eq_take (p : String) :
    stripQualifier p = String.mk (p.toList.takeWhile (fun c => c != '?')) := by
  unfold stripQualifier
  split
  · rfl
  · rename_i h
    rw [takeWhile_no_qmark _ h]
    cases p
    rfl

/-- C3: for a cve request, each fetched row with a blank (empty or
whitespace-only) purl is looked up in dm.dm_vulns by exact
(packagename, packageversion), and each row with a non-blank purl by the
purl with any question-mark suffix stripped (the prefix before the first
question mark); one entry is emitted per matching record, with url the
fixed vulnerability-database base url concatenated with the record id. -/
theorem C3_cveLookups (vdb : VulnDb) (rows : List DepRow) :
    cveLoop vdb rows = rows.flatMap (fun row =>
      (if isBlank row.purl then vdb.byPackage row.packagename row.packageversion
        else vdb.byPurl (String.mk (row.purl.toList.takeWhile (fun c => c != '?')))).map
        (fun v => ⟨row.packagename, row.packageversion, v.id, osvBase ++ v.id, v.summary,
          row.fullcompname, v.risklevel⟩)) := by
  unfold cveLoop
  rw [foldl_append_eq_bind (cveRowStep vdb) rows []]
  rw [List.nil_append]
  apply congrArg
  funext row
  unfold cveRowStep
  simp only [stripQualifier_eq_take]

/-- C7 counterexample: the value "licenses" differs from both accepted
literals, yet it passes the unanchored regex validation and reaches the
handler body, which answers 200 — it is not rejected as a validation
failure. -/
theorem C7_counterexample :
    ("licenses" ≠ "license" ∧ "licenses" ≠ "cve") ∧
      msapiDeppkg (some 1) none "licenses"
          ⟨.response 200, fun _ _ => .ok [], fun _ => 200, ⟨fun _ _ => [], fun _ => []⟩⟩ =
        ⟨.ok [], [⟨sqlComponent, some 1, "license"⟩], [], []⟩ := by
  decide

/-- C7 (amended): the deptype parameter is validated by a regex match
anchored only at the start, so exactly the strings having license or cve as
a prefix are accepted — in particular the two exact values — and any string
with neither prefix is rejected with a 422 validation failure before the
handler body runs (no authorization call, no database query, no HEAD
probe). -/
theorem C7_deptypeValidation (s : String) (w : ReqWorld) (cid aid : Option Int) :
    (deptypeMatches s = true ↔
      ("license".toList <+: s.toList ∨ "cve".toList <+: s.toList)) ∧
    (deptypeMatches s = false →
      msapiDeppkg cid aid s w = ⟨.err 422 "validation error", [], [], []⟩) ∧
    (deptypeMatches s = true → msapiDeppkg cid aid s w = getCompPkgDeps cid aid s w) := by
  refine ⟨?_, ?_, ?_⟩
  · simp [deptypeMatches, List.isPrefixOf_iff_prefix]
  · intro h
    simp [msapiDeppkg, h]
  · intro h
    simp [msapiDeppkg, h]

theorem C7_deptypeValidation_witness :
    msapiDeppkg none none "bogus"
        ⟨.response 200, fun _ _ => .ok [], fun _ => 200, ⟨fun _ _ => [], fun _ => []⟩⟩ =
      ⟨.err 422 "validation error", [], [], []⟩ :=
  (C7_deptypeValidation "bogus"
    ⟨.response 200, fun _ _ => .ok [], fun _ => 200, ⟨fun _ _ => [], fun _ => []⟩⟩
    none none).2.1 (by decide)
